import Mathlib

/-!
Shallow embedding of the multi-agent A2A orchestrator in
`code/GitHubCopilotAgents_A2A/multi-agents-orchestrations/gh-copilot-a2a-orchestration/main.py`.

Modelling decisions, uniform across the file:

* Scores. The Python scorer accumulates the float contributions 0.5, -0.3,
  0.2, 0.15, 0.25, clamps into [0.0, 1.0] and compares against the routing
  threshold 0.1.  All contributions are integer multiples of 0.01, so the
  score is modelled exactly as an `Int` number of hundredths of a point:
  50, -30, 20, 15, 25, clamp into [0, 100], threshold 10.  This is the
  intended decimal arithmetic of the source; IEEE-754 rounding of the
  binary floats is not modelled.
* Strings. Python `str` values are modelled as `String`, `needle in hay`
  as contiguous-substring search over the character list, `str.lower()`
  as character-wise lowering (`Char.toLower`), and `\w` of `re` as
  ASCII alphanumerics plus underscore.  This is exact for ASCII text.
* The Python `dict` registry is an insertion-ordered association list with
  unique keys; `dict[k] = v` updates in place when the key is present and
  appends otherwise, exactly like CPython dicts.
* Network I/O. `discover_agent` fetches a card over HTTP and returns the
  parsed `AgentInfo`, or `None` when anything fails (it catches every
  exception).  A discovery batch is therefore modelled by the list of
  per-host outcomes `List (Option AgentInfo)`; `asyncio.gather` with
  `return_exceptions=True` delivers them in host order, and the registry
  loop consumes them in that order.  The opaque `A2AAgent` invocation
  handle carried by `AgentInfo` plays no role in discovery or routing and
  is omitted from the structure.
* `list.sort(key=lambda x: x[1], reverse=True)` is a stable descending
  sort by score; it is modelled by `List.mergeSort` (stable) with the
  comparison `scoreGE`.
-/

namespace A2AOrch

/-- `charsStartWith needle hay` holds when `needle` is an initial segment
of `hay` (character lists). -/
def charsStartWith : List Char → List Char → Bool
  | [], _ => true
  | _ :: _, [] => false
  | a :: as, b :: bs => a == b && charsStartWith as bs

/-- `charsContain hay needle` holds when `needle` occurs contiguously
inside `hay`. -/
def charsContain : List Char → List Char → Bool
  | [], needle => needle.isEmpty
  | h :: t, needle => charsStartWith needle (h :: t) || charsContain t needle

/-- Python's substring test `needle in hay` on strings. -/
def strIn (needle hay : String) : Bool := charsContain hay.toList needle.toList

/-- Python's `str.lower()`, character by character (exact on ASCII). -/
def strLower (s : String) : String := String.mk (s.toList.map Char.toLower)

/-- One skill entry of an agent card, as the `dict` built by
`discover_agent`: every key is optional (`skill_dict` only receives the
attributes the card actually carries). Only `id` is consulted by the
scorer. -/
structure Skill where
  id : Option String := none
  name : Option String := none
  description : Option String := none
  tags : Option (List String) := none
  examples : Option (List String) := none
deriving DecidableEq

/-- The dataclass `AgentInfo` of `main.py` (the opaque `agent : A2AAgent`
invocation handle is omitted; it never influences discovery or routing
decisions). -/
structure AgentInfo where
  host : String := ""
  name : String
  description : String := ""
  skills : List Skill := []
  tags : List String := []
  examples : List String := []
  primary_keywords : List String := []
deriving DecidableEq

/-- A word character of Python's `re` module, restricted to ASCII:
alphanumeric or underscore. -/
def wordChar (c : Char) : Bool := c.isAlphanum || c == '_'

/-- `re.findall(r'\b\w+\b', s)`: the maximal runs of word characters
of `s`. -/
def findWordRuns (s : String) : List String :=
  ((s.toList.splitOnP (fun c => !wordChar c)).filter (fun l => !l.isEmpty)).map
    (fun l => String.mk l)

/-- `skill_id.replace('_', ' ').split()`: underscores become spaces, then
the string is split on whitespace runs, dropping empty pieces. -/
def skillIdTokens (sid : String) : List String :=
  (((sid.toList.map (fun c => if c == '_' then ' ' else c)).splitOnP
      (fun c => c.isWhitespace)).filter (fun l => !l.isEmpty)).map (fun l => String.mk l)

/-- The generic tags skipped by the tag rule of `matches_task`. -/
def stopTags : List String := ["technical", "tutorial", "guide", "code", "examples"]

/-- The stop words skipped by the agent-name rule of `matches_task`. -/
def nameStopWords : List String := ["agent", "the", "a"]

/-- `AgentInfo.matches_task` of `main.py`, line for line; score in
hundredths of a point.  The five accumulation loops are the five `for`
loops of the source, and the final line is
`max(0.0, min(score, 1.0))`. -/
def matches_task (self : AgentInfo) (task : String)
    (all_agents_keywords : List (String × List String)) : Int :=
  let task_lower := strLower task
  let score : Int := 0
  let score := self.primary_keywords.foldl
    (fun s keyword => if strIn (strLower keyword) task_lower then s + 50 else s) score
  let score := all_agents_keywords.foldl
    (fun s other =>
      if other.1 ≠ self.name then
        other.2.foldl
          (fun s2 keyword => if strIn (strLower keyword) task_lower then s2 - 30 else s2) s
      else s) score
  let score := self.tags.foldl
    (fun s tag =>
      let tag_lower := strLower tag
      if stopTags.contains tag_lower then s
      else if strIn tag_lower task_lower then s + 20 else s) score
  let score := self.skills.foldl
    (fun s skill =>
      let skill_id := strLower (skill.id.getD "")
      if skill_id = "" then s
      else
        (skillIdTokens skill_id).foldl
          (fun s2 kw => if decide (3 < kw.length) && strIn kw task_lower then s2 + 15 else s2)
          s) score
  let score := (findWordRuns (strLower self.name)).foldl
    (fun s part =>
      if !nameStopWords.contains part && strIn part task_lower then s + 25 else s) score
  max 0 (min score 100)

/-- Number of primary keywords of a list occurring in the lowered task. -/
def countKeywordHits (keywords : List String) (task_lower : String) : Nat :=
  keywords.countP (fun keyword => strIn (strLower keyword) task_lower)

/-- Number of keyword occurrences of agents other than the candidate. -/
def countCrossHits (candidate : String) (allk : List (String × List String))
    (task_lower : String) : Nat :=
  ((allk.filter (fun other => other.1 ≠ candidate)).map
    (fun other => countKeywordHits other.2 task_lower)).sum

/-- Number of non-generic tags occurring in the lowered task. -/
def countTagHits (tags : List String) (task_lower : String) : Nat :=
  tags.countP
    (fun tag => !stopTags.contains (strLower tag) && strIn (strLower tag) task_lower)

/-- Number of skill-id tokens (under tokenizer `tok`) longer than three
characters occurring in the lowered task, summed over all skills. -/
def countSkillTokenHits (tok : String → List String) (skills : List Skill)
    (task_lower : String) : Nat :=
  (skills.map (fun skill =>
    (tok (strLower (skill.id.getD ""))).countP
      (fun kw => decide (3 < kw.length) && strIn kw task_lower))).sum

/-- Number of word-boundary tokens of the agent name, outside the stop
words, occurring in the lowered task. -/
def countNameHits (name : String) (task_lower : String) : Nat :=
  (findWordRuns (strLower name)).countP
    (fun part => !nameStopWords.contains part && strIn part task_lower)

/-- Clamp into [0.0, 1.0], in hundredths. -/
def clampScore (s : Int) : Int := max 0 (min s 100)

/-- The relevance score as a clamped linear combination of hit counts,
parametrised by the skill-id tokenizer. -/
def score_formula (tok : String → List String) (self : AgentInfo) (task : String)
    (allk : List (String × List String)) : Int :=
  let task_lower := strLower task
  clampScore
    (50 * (countKeywordHits self.primary_keywords task_lower : Int)
      - 30 * (countCrossHits self.name allk task_lower : Int)
      + 20 * (countTagHits self.tags task_lower : Int)
      + 15 * (countSkillTokenHits tok self.skills task_lower : Int)
      + 25 * (countNameHits self.name task_lower : Int))

/-- Splitting a skill id on underscores only (the reading in which a
skill id is tokenized solely at `_`, leaving any whitespace inside a
token). -/
def underscoreTokens (sid : String) : List String :=
  (sid.toList.splitOnP (fun c => c == '_')).map (fun l => String.mk l)

/-- The score as claimed: skill ids split on underscores only. -/
def score_as_claimed (self : AgentInfo) (task : String)
    (allk : List (String × List String)) : Int :=
  score_formula underscoreTokens self task allk

/-- The score with the skill-id rule as the source implements it:
underscores replaced by spaces, then split on whitespace. -/
def score_as_implemented (self : AgentInfo) (task : String)
    (allk : List (String × List String)) : Int :=
  score_formula skillIdTokens self task allk

/-- A candidate whose only skill id contains a space: the source splits
it into two tokens, the claimed underscore-only split keeps it whole. -/
def infoSpaceSkill : AgentInfo := { name := "x", skills := [{ id := some "blog post" }] }

/-- The registry dictionary: an insertion-ordered association list with
unique keys, as a CPython `dict`. -/
abbrev AgentDict := List (String × AgentInfo)

/-- The keys of the registry, in insertion order (`dict` iteration
order). -/
def dictKeys (d : AgentDict) : List String := d.map Prod.fst

/-- Python `k in d`. -/
def dictContainsKey (d : AgentDict) (k : String) : Bool := d.any (fun p => p.1 == k)

/-- Python `d[k]` for reading (`none` when the key is absent, where the
source would raise `KeyError`; every lookup performed by the source is
on a present key in the states discovery produces). -/
def dictLookup (d : AgentDict) (k : String) : Option AgentInfo :=
  (d.find? (fun p => p.1 == k)).map Prod.snd

/-- Python `d[k] = v`: update in place when the key is present, append
otherwise. -/
def dictInsert (d : AgentDict) (k : String) (v : AgentInfo) : AgentDict :=
  if dictContainsKey d k then d.map (fun p => if p.1 == k then (k, v) else p)
  else d ++ [(k, v)]

/-- The mutable state of `MultiAgentOrchestrator`: the registry
`self.agents` and `self.default_agent`. -/
structure OrchState where
  agents : AgentDict
  default_agent : Option String
deriving DecidableEq

/-- A freshly constructed orchestrator: empty registry, no default. -/
def emptyOrchestrator : OrchState := { agents := [], default_agent := none }

/-- Processing one settled discovery result inside the loop of
`discover_all_agents`: successes are inserted keyed by their declared
name and become the default agent when none is set (`is None` test);
failures (`None` results and exceptions, both only logged) leave the
state unchanged. -/
def discoverStep (st : OrchState) (result : Option AgentInfo) : OrchState :=
  match result with
  | some info =>
      { agents := dictInsert st.agents info.name info,
        default_agent :=
          match st.default_agent with
          | none => some info.name
          | some d => some d }
  | none => st

/-- `discover_all_agents`: consume the settled per-host results in order
and return the new state together with `len(self.agents)`. -/
def discover_all_agents (st : OrchState) (results : List (Option AgentInfo)) :
    OrchState × Nat :=
  let st := results.foldl discoverStep st
  (st, st.agents.length)

/-- An agent card as far as the keyword-extraction chain of
`discover_agent` observes it: each of the two direct attribute variants
is `none` when `hasattr` fails; `model_extra` is the Pydantic extras
mapping (`none` when the attribute is missing); `dunder_dict` is the
`primaryKeywords` entry of `__dict__` when present. -/
structure AgentCard where
  name : String := ""
  primary_keywords : Option (List String) := none
  primaryKeywords : Option (List String) := none
  model_extra : Option (List (String × List String)) := none
  dunder_dict : Option (List String) := none
deriving DecidableEq

/-- Truthiness of `hasattr(card, f) and card.f` for an optional list
attribute: present and non-empty. -/
def presentNonempty (o : Option (List String)) : Bool := !(o.getD []).isEmpty

/-- The `primary_keywords` extraction chain of `discover_agent`
(lines 185–197): an `elif` cascade that stops at the first branch whose
guard fires, starting from `primary_keywords = []`. -/
def extract_primary_keywords (card : AgentCard) : List String :=
  if presentNonempty card.primary_keywords then card.primary_keywords.getD []
  else if presentNonempty card.primaryKeywords then card.primaryKeywords.getD []
  else if !(card.model_extra.getD []).isEmpty then
    match (card.model_extra.getD []).find? (fun p => p.1 == "primaryKeywords") with
    | some p => p.2
    | none => []
  else card.dunder_dict.getD []

/-- `all_agents_keywords` as built by `select_agent`: every registered
agent name paired with its primary keywords. -/
def all_agents_keywords (st : OrchState) : List (String × List String) :=
  st.agents.map (fun p => (p.1, p.2.primary_keywords))

/-- The score list built by `select_agent`, in registry (insertion)
order. -/
def rawScores (st : OrchState) (task : String) : List (String × Int) :=
  st.agents.map (fun p => (p.1, matches_task p.2 task (all_agents_keywords st)))

/-- The comparison of `scores.sort(key=lambda x: x[1], reverse=True)`:
a stable descending sort by score. -/
def scoreGE (a b : String × Int) : Bool := b.2 ≤ a.2

/-- The score list after the stable descending sort. -/
def rankedScores (st : OrchState) (task : String) : List (String × Int) :=
  (rawScores st task).mergeSort scoreGE

/-- `select_agent`: `None` on an empty registry; otherwise the
top-ranked agent when its score beats the 0.1 threshold, else the
default agent when `self.default_agent` is truthy, else `None`. -/
def select_agent (st : OrchState) (task : String) : Option AgentInfo :=
  if st.agents.isEmpty then none
  else
    match rankedScores st task with
    | [] => none
    | (best_agent, best_score) :: _ =>
      if best_score > 10 then dictLookup st.agents best_agent
      else
        match st.default_agent with
        | some d => if d ≠ "" then dictLookup st.agents d else none
        | none => none

/-- The typed routing failure: `raise ValueError("No suitable agent
found for the task")` in `send_task`. -/
inductive RouteError where
  | noSuitableAgent
deriving DecidableEq

/-- The agent-resolution phase of `send_task`: the explicit agent when
the optional name is truthy and registered, otherwise score-based
selection; failure to resolve raises the typed error.  The subsequent
remote invocation is external I/O and is not part of the routing
decision. -/
def send_task (st : OrchState) (task : String) (agent_name : Option String) :
    Except RouteError AgentInfo :=
  let agent_info : Option AgentInfo :=
    match agent_name with
    | some nm =>
        if nm ≠ "" ∧ dictContainsKey st.agents nm then dictLookup st.agents nm
        else select_agent st task
    | none => select_agent st task
  match agent_info with
  | some info => Except.ok info
  | none => Except.error RouteError.noSuitableAgent

instance : DecidableEq (Except RouteError AgentInfo) := fun x y =>
  match x, y with
  | Except.ok a, Except.ok b =>
      if h : a = b then isTrue (congrArg Except.ok h)
      else isFalse (fun he => h (Except.ok.inj he))
  | Except.ok _, Except.error _ => isFalse (fun he => Except.noConfusion he)
  | Except.error _, Except.ok _ => isFalse (fun he => Except.noConfusion he)
  | Except.error e, Except.error f =>
      if h : e = f then isTrue (congrArg Except.error h)
      else isFalse (fun he => h (Except.error.inj he))

/-- Name occurrence-preserving insert used to describe registry keys. -/
def insertName (ks : List String) (k : String) : List String :=
  if k ∈ ks then ks else ks ++ [k]

/-- First occurrences of a list of names, in order: the key sequence a
CPython dict built by repeated insertion ends up with. -/
def distinctNames (l : List String) : List String := l.foldl insertName []

/-- A blog-writing agent as the demo deployment declares it. -/
def blogAgentInfo : AgentInfo :=
  { host := "http://localhost:10020", name := "blog_agent",
    description := "Writes blog posts", primary_keywords := ["blog", "article"],
    skills := [{ id := some "create_blog_post", name := some "Create Blog Post" }],
    tags := ["writing"] }

/-- A slide-deck agent as the demo deployment declares it. -/
def pptAgentInfo : AgentInfo :=
  { host := "http://localhost:10021", name := "ppt_agent",
    description := "Creates slide decks", primary_keywords := ["ppt", "slides"],
    skills := [{ id := some "create_ppt", name := some "Create PPT" }],
    tags := ["slides"] }

/-- The registry after discovering the blog agent and then the ppt
agent. -/
def demoRegistry : OrchState :=
  { agents := [("blog_agent", blogAgentInfo), ("ppt_agent", pptAgentInfo)],
    default_agent := some "blog_agent" }

/-- An agent whose declared name is "b". -/
def bAgent : AgentInfo := { name := "b", primary_keywords := ["b"] }

/-- An agent whose declared name is the empty string. -/
def anonAgent : AgentInfo := { name := "" }

/-- The registry after discovering `bAgent` and then `anonAgent`: the
empty string is a genuine registry key. -/
def stEmptyName : OrchState :=
  { agents := [("b", bAgent), ("", anonAgent)], default_agent := some "b" }

/-- The registry after discovering only `anonAgent`: the default agent
name is the empty string, which Python truthiness treats as unset. -/
def stUnnamedDefault : OrchState :=
  { agents := [("", anonAgent)], default_agent := some "" }

/-- An agent that matches nothing in the tasks used below. -/
def writerInfo : AgentInfo := { name := "writer_service", primary_keywords := ["essay"] }

/-- A one-agent registry whose single agent is the default. -/
def stDefaultOnly : OrchState :=
  { agents := [("writer_service", writerInfo)], default_agent := some "writer_service" }

/-- Two successful discoveries that declare the same agent name. -/
def dupHostOne : AgentInfo := { name := "dup_agent", host := "http://h1" }

/-- Second agent with the same declared name, from another host. -/
def dupHostTwo : AgentInfo := { name := "dup_agent", host := "http://h2" }

/-- Agent discovered from host 1. -/
def h1Agent : AgentInfo := { name := "h1_agent", host := "http://h1" }

/-- Agent discovered from host 3. -/
def h3Agent : AgentInfo := { name := "h3_agent", host := "http://h3" }

/-- Two agents that tie (both score 0) on unrelated tasks. -/
def alphaInfo : AgentInfo := { name := "alpha_service" }

/-- Second of the two tying agents. -/
def betaInfo : AgentInfo := { name := "beta_service" }

/-- Registry holding the two tying agents, alpha discovered first. -/
def stTies : OrchState :=
  { agents := [("alpha_service", alphaInfo), ("beta_service", betaInfo)],
    default_agent := some "alpha_service" }

/-- A card carrying routing keywords under both historical field-name
variants, with different contents. -/
def cardBothVariants : AgentCard :=
  { name := "x", primary_keywords := some ["alpha"], primaryKeywords := some ["beta"] }

/-- A card carrying routing keywords only under the camel-case
variant. -/
def cardCamelOnly : AgentCard := { name := "y", primaryKeywords := some ["beta"] }

/-! Helper lemmas about the accumulation loops of the scorer. -/

theorem foldl_if_add (l : List α) (p : α → Bool) (c init : Int) :
    l.foldl (fun s x => if p x then s + c else s) init = init + c * (l.countP p : Int) := by
  induction l generalizing init with
  | nil => simp
  | cons x t ih =>
    simp only [List.foldl_cons, List.countP_cons]
    by_cases h : p x = true
    · rw [if_pos h, ih]
      simp only [h, if_pos]
      push_cast
      ring
    · rw [if_neg h, ih]
      simp [h]

theorem foldl_if_sub (l : List α) (p : α → Bool) (c init : Int) :
    l.foldl (fun s x => if p x then s - c else s) init = init - c * (l.countP p : Int) := by
  induction l generalizing init with
  | nil => simp
  | cons x t ih =>
    simp only [List.foldl_cons, List.countP_cons]
    by_cases h : p x = true
    · rw [if_pos h, ih]
      simp only [h, if_pos]
      push_cast
      ring
    · rw [if_neg h, ih]
      simp [h]

theorem foldl_cross (l : List (String × List String)) (nm : String) (taskL : String)
    (init : Int) :
    l.foldl
      (fun s other =>
        if other.1 ≠ nm then
          other.2.foldl
            (fun s2 keyword => if strIn (strLower keyword) taskL then s2 - 30 else s2) s
        else s) init
    = init - 30 * (countCrossHits nm l taskL : Int) := by
  induction l generalizing init with
  | nil => simp [countCrossHits]
  | cons x t ih =>
    simp only [List.foldl_cons]
    by_cases h : x.1 = nm
    · rw [if_neg (by simp [h]), ih]
      simp [countCrossHits, h]
    · rw [if_pos (by simp [h]), foldl_if_sub, ih]
      simp only [countCrossHits, countKeywordHits, List.filter_cons]
      rw [if_pos (by simp [h])]
      simp only [List.map_cons, List.sum_cons]
      push_cast
      ring

theorem foldl_tags (l : List String) (taskL : String) (init : Int) :
    l.foldl
      (fun s tag =>
        if stopTags.contains (strLower tag) then s
        else if strIn (strLower tag) taskL then s + 20 else s) init
    = init + 20 * (countTagHits l taskL : Int) := by
  induction l generalizing init with
  | nil => simp [countTagHits]
  | cons x t ih =>
    simp only [List.foldl_cons, countTagHits, List.countP_cons]
    by_cases h1 : stopTags.contains (strLower x) = true
    · have hp : (!stopTags.contains (strLower x) && strIn (strLower x) taskL) = false := by
        rw [h1]
        rfl
      rw [if_pos h1, ih, hp]
      simp [countTagHits]
    · have h1f : stopTags.contains (strLower x) = false := Bool.eq_false_iff.mpr h1
      by_cases h2 : strIn (strLower x) taskL = true
      · have hp : (!stopTags.contains (strLower x) && strIn (strLower x) taskL) = true := by
          rw [h1f, h2]
          rfl
        rw [if_neg h1, if_pos h2, ih, hp]
        simp only [countTagHits, if_pos]
        push_cast
        ring
      · have hp : (!stopTags.contains (strLower x) && strIn (strLower x) taskL) = false := by
          simp [h2]
        rw [if_neg h1, if_neg h2, ih, hp]
        simp [countTagHits]

theorem foldl_skills (l : List Skill) (taskL : String) (init : Int) :
    l.foldl
      (fun s skill =>
        if strLower (skill.id.getD "") = "" then s
        else
          (skillIdTokens (strLower (skill.id.getD ""))).foldl
            (fun s2 kw =>
              if decide (3 < kw.length) && strIn kw taskL then s2 + 15 else s2) s) init
    = init + 15 * (countSkillTokenHits skillIdTokens l taskL : Int) := by
  induction l generalizing init with
  | nil => simp [countSkillTokenHits]
  | cons x t ih =>
    simp only [List.foldl_cons, countSkillTokenHits, List.map_cons, List.sum_cons]
    by_cases h : strLower (x.id.getD "") = ""
    · rw [if_pos h, ih]
      rw [h]
      simp only [countSkillTokenHits]
      have hz : skillIdTokens "" = [] := rfl
      rw [hz]
      simp only [List.countP_nil, Nat.cast_zero]
      push_cast
      ring
    · rw [if_neg h, foldl_if_add, ih]
      simp only [countSkillTokenHits]
      push_cast
      ring

/-- Claim C1, counterexample: with the single skill id "blog post" the
source tokenizes on the space as well (two tokens "blog"/"post", each
scoring 0.15), while the claimed underscore-only split keeps one token
"blog post" (scoring 0.15 once); on the task "blog post" the scores
differ (0.30 against 0.15, i.e. 30 against 15 hundredths), so the score
does not equal the claimed formula. -/
theorem c1_counterexample :
    matches_task infoSpaceSkill "blog post" [] = 30 ∧
    score_as_claimed infoSpaceSkill "blog post" [] = 15 ∧
    matches_task infoSpaceSkill "blog post" [] ≠
      score_as_claimed infoSpaceSkill "blog post" [] := by
  decide

/-- Claim C1, amended: the relevance score equals the clamp to
[0.0, 1.0] of 0.5 per matching primary keyword, minus 0.3 per matching
keyword of every other agent in the mapping, plus 0.2 per matching
non-generic tag, plus 0.15 per token of each skill id — obtained by
replacing underscores with spaces and splitting on whitespace — that is
longer than three characters and occurs in the task, plus 0.25 per
non-stop-word word-boundary token of the agent name occurring in the
task, all matched case-insensitively against the lower-cased task
(scores in hundredths). -/
theorem c1_score_formula (self : AgentInfo) (task : String)
    (allk : List (String × List String)) :
    matches_task self task allk = score_as_implemented self task allk := by
  simp only [matches_task, score_as_implemented, score_formula, clampScore]
  rw [foldl_if_add, foldl_skills, foldl_tags, foldl_cross, foldl_if_add]
  simp only [countKeywordHits, countCrossHits, countTagHits, countSkillTokenHits,
    countNameHits]
  congr 1
  congr 1
  push_cast
  ring

/-- Claim C2: for every task, candidate profile and sibling-keyword
mapping, the relevance score lies between 0.0 and 1.0 (0 and 100
hundredths), however many positive or negative contributions accumulate
before the clamp. -/
theorem c2_score_clamped (self : AgentInfo) (task : String)
    (allk : List (String × List String)) :
    0 ≤ matches_task self task allk ∧ matches_task self task allk ≤ 100 := by
  simp only [matches_task]
  exact ⟨le_max_left 0 _, max_le (by norm_num) (min_le_right _ _)⟩

/-! Helper lemmas about the registry dictionary and the discovery loop. -/

theorem dictContainsKey_iff (d : AgentDict) (k : String) :
    dictContainsKey d k = true ↔ k ∈ dictKeys d := by
  simp [dictContainsKey, dictKeys, List.any_eq_true, List.mem_map]

theorem dictLookup_isSome (d : AgentDict) (k : String) (h : k ∈ dictKeys d) :
    ∃ v, dictLookup d k = some v := by
  simp only [dictLookup]
  have hs : (d.find? (fun p => p.1 == k)).isSome = true := by
    rw [List.find?_isSome]
    obtain ⟨p, hp, he⟩ : ∃ p ∈ d, p.1 = k := by simpa [dictKeys] using h
    exact ⟨p, hp, by simp [he]⟩
  obtain ⟨p, hp⟩ := Option.isSome_iff_exists.mp hs
  exact ⟨p.2, by rw [hp]; rfl⟩

theorem dictContains_of_lookup {d : AgentDict} {k : String} {v : AgentInfo}
    (h : dictLookup d k = some v) : dictContainsKey d k = true := by
  simp only [dictLookup, Option.map_eq_some'] at h
  obtain ⟨p, hp, _⟩ := h
  have hm : p ∈ d := List.mem_of_find?_eq_some hp
  have hb : (p.1 == k) = true := by simpa using List.find?_some hp
  exact List.any_eq_true.mpr ⟨p, hm, hb⟩

theorem dictKeys_dictInsert (d : AgentDict) (k : String) (v : AgentInfo) :
    dictKeys (dictInsert d k v) = insertName (dictKeys d) k := by
  simp only [dictInsert, insertName]
  by_cases h : dictContainsKey d k = true
  · rw [if_pos h, if_pos ((dictContainsKey_iff d k).mp h)]
    simp only [dictKeys, List.map_map]
    apply List.map_congr_left
    intro p _
    simp only [Function.comp_apply]
    by_cases hpk : (p.1 == k) = true
    · rw [if_pos hpk]
      exact (eq_of_beq hpk).symm
    · rw [if_neg hpk]
  · rw [if_neg h, if_neg (fun hmem => h ((dictContainsKey_iff d k).mpr hmem))]
    simp [dictKeys]

theorem mem_insertName {ks : List String} {k a : String} :
    a ∈ insertName ks k ↔ a ∈ ks ∨ a = k := by
  simp only [insertName]
  by_cases h : k ∈ ks
  · rw [if_pos h]
    constructor
    · exact Or.inl
    · rintro (ha | rfl)
      · exact ha
      · exact h
  · rw [if_neg h]
    simp

theorem mem_foldl_insertName (l : List String) (ks : List String) (a : String) :
    a ∈ l.foldl insertName ks ↔ a ∈ ks ∨ a ∈ l := by
  induction l generalizing ks with
  | nil => simp
  | cons x t ih =>
    rw [List.foldl_cons, ih, mem_insertName, List.mem_cons]
    tauto

theorem mem_dictInsert {d : AgentDict} {k : String} {v : AgentInfo}
    {p : String × AgentInfo} (hp : p ∈ dictInsert d k v) : p ∈ d ∨ p = (k, v) := by
  simp only [dictInsert] at hp
  by_cases h : dictContainsKey d k = true
  · rw [if_pos h] at hp
    obtain ⟨q, hq, he⟩ := List.mem_map.mp hp
    by_cases hqk : (q.1 == k) = true
    · rw [if_pos hqk] at he
      exact Or.inr he.symm
    · rw [if_neg hqk] at he
      exact Or.inl (he ▸ hq)
  · rw [if_neg h] at hp
    rcases List.mem_append.mp hp with h1 | h2
    · exact Or.inl h1
    · right
      simpa using h2

theorem dictKeys_fold_discoverStep (results : List (Option AgentInfo)) (st : OrchState) :
    dictKeys (results.foldl discoverStep st).agents
      = ((results.filterMap id).map AgentInfo.name).foldl insertName
          (dictKeys st.agents) := by
  induction results generalizing st with
  | nil => simp
  | cons r t ih =>
    cases r with
    | none =>
      rw [List.foldl_cons]
      simpa using ih st
    | some info =>
      rw [List.foldl_cons, ih]
      simp only [List.filterMap_cons, id_eq, List.map_cons, List.foldl_cons]
      congr 1
      simp only [discoverStep]
      exact dictKeys_dictInsert st.agents info.name info

theorem default_fold_discoverStep (results : List (Option AgentInfo)) (st : OrchState) :
    (results.foldl discoverStep st).default_agent
      = (match st.default_agent with
         | some d => some d
         | none => ((results.filterMap id).map AgentInfo.name).head?) := by
  induction results generalizing st with
  | nil => cases h : st.default_agent <;> simp [h]
  | cons r t ih =>
    cases r with
    | none =>
      rw [List.foldl_cons]
      simpa using ih st
    | some info =>
      rw [List.foldl_cons, ih]
      cases h : st.default_agent with
      | none => simp [discoverStep, h]
      | some d => simp [discoverStep, h]

theorem entries_fold_discoverStep (results : List (Option AgentInfo)) (st : OrchState)
    (p : String × AgentInfo) (hp : p ∈ (results.foldl discoverStep st).agents) :
    p ∈ st.agents ∨ (p.2.name = p.1 ∧ p.2 ∈ results.filterMap id) := by
  induction results generalizing st with
  | nil => exact Or.inl (by simpa using hp)
  | cons r t ih =>
    cases r with
    | none =>
      rw [List.foldl_cons] at hp
      rcases ih st hp with h | ⟨h1, h2⟩
      · exact Or.inl h
      · exact Or.inr ⟨h1, by simpa using h2⟩
    | some info =>
      rw [List.foldl_cons] at hp
      rcases ih (discoverStep st (some info)) hp with h | ⟨h1, h2⟩
      · have h' : p ∈ dictInsert st.agents info.name info := by
          simpa [discoverStep] using h
        rcases mem_dictInsert h' with h'' | rfl
        · exact Or.inl h''
        · exact Or.inr ⟨rfl, by simp⟩
      · exact Or.inr ⟨h1, by simp [h2]⟩

/-- Claim C6, counterexample: two hosts both succeed but declare the same
agent name; the second insertion overwrites the first, so the returned
count (`len(self.agents)`) is 1 while the number of successfully
discovered agents is 2. -/
theorem c6_counterexample :
    ([some dupHostOne, some dupHostTwo].filterMap id).length = 2 ∧
    (discover_all_agents emptyOrchestrator [some dupHostOne, some dupHostTwo]).2 = 1 := by
  decide

/-- Claim C6, amended: a discovery batch starting from an empty registry
never fails as a whole (the model of the batch is a total function over
the per-host outcomes); failed hosts are simply omitted; every
successfully fetched agent's declared name is a registry key, every
registry entry comes from a successful fetch keyed by its declared name,
and the returned count is the size of the resulting registry: the number
of DISTINCT declared names among the successes (the last success with a
given name wins the entry). -/
theorem c6_registry (results : List (Option AgentInfo)) :
    (discover_all_agents emptyOrchestrator results).2
      = (discover_all_agents emptyOrchestrator results).1.agents.length ∧
    (discover_all_agents emptyOrchestrator results).2
      = (distinctNames ((results.filterMap id).map AgentInfo.name)).length ∧
    (∀ nm, nm ∈ dictKeys (discover_all_agents emptyOrchestrator results).1.agents ↔
      nm ∈ (results.filterMap id).map AgentInfo.name) ∧
    (∀ nm info,
      dictLookup (discover_all_agents emptyOrchestrator results).1.agents nm = some info →
        info.name = nm ∧ info ∈ results.filterMap id) := by
  refine ⟨rfl, ?_, ?_, ?_⟩
  · have hk := dictKeys_fold_discoverStep results emptyOrchestrator
    simp only [discover_all_agents]
    have hlen : (results.foldl discoverStep emptyOrchestrator).agents.length
        = (dictKeys (results.foldl discoverStep emptyOrchestrator).agents).length := by
      simp [dictKeys]
    rw [hlen, hk]
    rfl
  · intro nm
    have hk := dictKeys_fold_discoverStep results emptyOrchestrator
    simp only [discover_all_agents]
    rw [hk]
    simpa [emptyOrchestrator, dictKeys] using
      mem_foldl_insertName ((results.filterMap id).map AgentInfo.name)
        (dictKeys emptyOrchestrator.agents) nm
  · intro nm info hl
    simp only [discover_all_agents, dictLookup, Option.map_eq_some'] at hl
    obtain ⟨p, hp, hsnd⟩ := hl
    have hm : p ∈ (results.foldl discoverStep emptyOrchestrator).agents :=
      List.mem_of_find?_eq_some hp
    have hb : (p.1 == nm) = true := by simpa using List.find?_some hp
    have heq : p.1 = nm := eq_of_beq hb
    rcases entries_fold_discoverStep results emptyOrchestrator p hm with h0 | ⟨h1, h2⟩
    · simp [emptyOrchestrator] at h0
    · refine ⟨?_, hsnd ▸ h2⟩
      rw [← hsnd, h1]
      exact heq

/-- Claim C6, witness: hosts one and three succeed, host two fails; the
registry gains exactly the two declared names and the count is 2. -/
theorem c6_witness :
    (discover_all_agents emptyOrchestrator [some h1Agent, none, some h3Agent]).2 = 2 ∧
    "h3_agent" ∈
      dictKeys (discover_all_agents emptyOrchestrator
        [some h1Agent, none, some h3Agent]).1.agents :=
  ⟨(c6_registry [some h1Agent, none, some h3Agent]).2.1.trans (by decide),
    ((c6_registry [some h1Agent, none, some h3Agent]).2.2.1 "h3_agent").mpr (by decide)⟩

/-- Claim C7: starting with no default agent, after the batch the default
agent name is the declared name of the first successful discovery in
settlement order (or stays unset when every host failed); a default that
is already set is never changed by the batch. -/
theorem c7_default (st : OrchState) (results : List (Option AgentInfo)) :
    (st.default_agent = none →
      (discover_all_agents st results).1.default_agent
        = ((results.filterMap id).map AgentInfo.name).head?) ∧
    (∀ d, st.default_agent = some d →
      (discover_all_agents st results).1.default_agent = some d) := by
  constructor
  · intro h
    have hd := default_fold_discoverStep results st
    rw [h] at hd
    simpa [discover_all_agents] using hd
  · intro d h
    have hd := default_fold_discoverStep results st
    rw [h] at hd
    simpa [discover_all_agents] using hd

/-- Claim C7, witness: host one fails, then two discoveries succeed; the
default becomes the first success's name and stays there. -/
theorem c7_witness :
    (discover_all_agents emptyOrchestrator
      [none, some h3Agent, some h1Agent]).1.default_agent = some "h3_agent" :=
  ((c7_default emptyOrchestrator [none, some h3Agent, some h1Agent]).1 rfl).trans
    (by decide)

/-- Truthiness of a present non-empty optional list. -/
theorem presentNonempty_some {l : List String} (h : l ≠ []) :
    presentNonempty (some l) = true := by
  simp [presentNonempty, h]

/-- Claim C8, counterexample: a card carrying different keywords under
the two variants yields only the snake-case ones — the `elif` chain never
merges, so "beta" (declared under `primaryKeywords`) is lost. -/
theorem c8_counterexample :
    extract_primary_keywords cardBothVariants = ["alpha"] ∧
    "beta" ∈ cardBothVariants.primaryKeywords.getD [] ∧
    "beta" ∉ extract_primary_keywords cardBothVariants := by
  decide

/-- Claim C8, amended: the extraction chain returns the first non-empty
keyword source in the fixed priority order `primary_keywords`,
`primaryKeywords` (then the Pydantic extras and `__dict__` fallbacks); a
card carrying keywords under exactly one variant yields exactly those
keywords, and when a card carries both variants only `primary_keywords`
is used, so no keyword is ever counted twice. -/
theorem c8_extract (card : AgentCard) :
    (∀ l, card.primary_keywords = some l → l ≠ [] →
      extract_primary_keywords card = l) ∧
    (∀ l, card.primary_keywords.getD [] = [] → card.primaryKeywords = some l → l ≠ [] →
      extract_primary_keywords card = l) ∧
    (∀ l1 l2, card.primary_keywords = some l1 → l1 ≠ [] →
      card.primaryKeywords = some l2 → extract_primary_keywords card = l1) := by
  refine ⟨?_, ?_, ?_⟩
  · intro l hl hne
    simp only [extract_primary_keywords, hl, presentNonempty_some hne, if_true,
      Option.getD_some]
  · intro l hempty hl hne
    have h1 : presentNonempty card.primary_keywords = false := by
      cases hc : card.primary_keywords with
      | none => rfl
      | some l0 =>
        rw [hc] at hempty
        simp only [Option.getD_some] at hempty
        simp [presentNonempty, hempty]
    simp only [extract_primary_keywords, h1, Bool.false_eq_true, if_false, hl,
      presentNonempty_some hne, if_true, Option.getD_some]
  · intro l1 l2 hl1 hne1 _
    simp only [extract_primary_keywords, hl1, presentNonempty_some hne1, if_true,
      Option.getD_some]

/-- Claim C8, witness: a card with only the camel-case variant yields
exactly those keywords. -/
theorem c8_witness : extract_primary_keywords cardCamelOnly = ["beta"] :=
  (c8_extract cardCamelOnly).2.1 ["beta"] rfl rfl (by decide)

/-! Helper lemmas about score-based selection. -/

theorem scoreGE_trans (a b c : String × Int) (hab : scoreGE a b = true)
    (hbc : scoreGE b c = true) : scoreGE a c = true := by
  simp only [scoreGE, decide_eq_true_eq] at hab hbc ⊢
  exact le_trans hbc hab

theorem scoreGE_total (a b : String × Int) : (scoreGE a b || scoreGE b a) = true := by
  simp only [scoreGE, Bool.or_eq_true, decide_eq_true_eq]
  exact le_total b.2 a.2

theorem rankedScores_sorted (st : OrchState) (task : String) :
    (rankedScores st task).Pairwise (fun a b => scoreGE a b = true) :=
  List.sorted_mergeSort scoreGE_trans scoreGE_total (rawScores st task)

theorem rankedScores_perm (st : OrchState) (task : String) :
    (rankedScores st task).Perm (rawScores st task) :=
  List.mergeSort_perm (rawScores st task) scoreGE

theorem select_setup (st : OrchState) (task : String) (hne : st.agents ≠ []) :
    ∃ pn ps tl, rankedScores st task = (pn, ps) :: tl ∧
      (pn, ps) ∈ rawScores st task ∧
      (∀ q ∈ rawScores st task, q.2 ≤ ps) ∧
      select_agent st task =
        (if ps > 10 then dictLookup st.agents pn
         else
           match st.default_agent with
           | some d => if d ≠ "" then dictLookup st.agents d else none
           | none => none) := by
  have hperm := rankedScores_perm st task
  have hraw_ne : rawScores st task ≠ [] := by
    simp [rawScores, hne]
  have hrank_ne : rankedScores st task ≠ [] := by
    intro h
    apply hraw_ne
    have hlen := hperm.length_eq
    rw [h] at hlen
    exact List.length_eq_zero.mp hlen.symm
  obtain ⟨p, tl, hrank⟩ := List.exists_cons_of_ne_nil hrank_ne
  obtain ⟨pn, ps⟩ := p
  have hp_mem : (pn, ps) ∈ rawScores st task :=
    hperm.subset (hrank ▸ List.mem_cons_self (pn, ps) tl)
  have hsorted := rankedScores_sorted st task
  rw [hrank] at hsorted
  have hmax : ∀ q ∈ rawScores st task, q.2 ≤ ps := by
    intro q hq
    have hq' : q ∈ (pn, ps) :: tl := by
      rw [← hrank]
      exact hperm.mem_iff.mpr hq
    rcases List.mem_cons.mp hq' with rfl | hq''
    · exact le_refl _
    · have hge := (List.pairwise_cons.mp hsorted).1 q hq''
      simpa [scoreGE] using hge
  refine ⟨pn, ps, tl, hrank, hp_mem, hmax, ?_⟩
  have hempty : st.agents.isEmpty = false := by
    cases h : st.agents with
    | nil => exact absurd h hne
    | cons a l => rfl
  simp only [select_agent, hempty, Bool.false_eq_true, if_false, hrank]

/-- Claim C3, counterexample: the empty string is a genuine registry key
of `stEmptyName`, yet routing with `explicitAgent = ""` does not select
it — Python truthiness of the empty string sends the call into
score-based selection, which picks the other agent.  The state is
reachable by discovery. -/
theorem c3_counterexample :
    dictContainsKey stEmptyName.agents "" = true ∧
    send_task stEmptyName "b" (some "") = Except.ok bAgent ∧
    bAgent.name = "b" ∧
    stEmptyName = (discover_all_agents emptyOrchestrator
      [some bAgent, some anonAgent]).1 := by
  have h1 : rawScores stEmptyName "b" = [("b", 75), ("", 0)] := by decide
  have h2 : rankedScores stEmptyName "b" = [("b", 75), ("", 0)] := by
    simp only [rankedScores, h1]
    exact List.mergeSort_of_sorted (by decide)
  refine ⟨by decide, ?_, by decide, by decide⟩
  simp only [send_task, select_agent, h2]
  decide

/-- Claim C3, amended: for every task and every NON-EMPTY agent name
that is a key of the registry, routing with that explicit name returns
that registry entry directly, bypassing the scorer entirely — whatever
the task and hence even when the explicit agent's score would be 0. -/
theorem c3_explicit (st : OrchState) (task : String) (nm : String) (info : AgentInfo)
    (hnm : nm ≠ "") (hlook : dictLookup st.agents nm = some info) :
    send_task st task (some nm) = Except.ok info := by
  have hc : dictContainsKey st.agents nm = true := dictContains_of_lookup hlook
  simp only [send_task]
  rw [if_pos ⟨hnm, hc⟩, hlook]

/-- Claim C3, witness: `ppt_agent` is selected explicitly on a task for
which its relevance score is 0. -/
theorem c3_witness :
    send_task demoRegistry "hello" (some "ppt_agent") = Except.ok pptAgentInfo ∧
    matches_task pptAgentInfo "hello" (all_agents_keywords demoRegistry) = 0 :=
  ⟨c3_explicit demoRegistry "hello" "ppt_agent" pptAgentInfo (by decide) (by decide),
    by decide⟩

/-- Claim C4, counterexample: a reachable one-agent registry whose
default agent name is the empty string; no score clears the threshold,
a default agent IS set (`default_agent = some ""`), yet selection yields
no agent and routing fails, because `if self.default_agent:` treats the
empty name as unset. -/
theorem c4_counterexample :
    stUnnamedDefault.agents ≠ [] ∧
    stUnnamedDefault.default_agent = some "" ∧
    (∀ q ∈ rawScores stUnnamedDefault "zzz", q.2 ≤ 10) ∧
    select_agent stUnnamedDefault "zzz" = none ∧
    send_task stUnnamedDefault "zzz" none = Except.error RouteError.noSuitableAgent ∧
    stUnnamedDefault = (discover_all_agents emptyOrchestrator [some anonAgent]).1 := by
  have h1 : rawScores stUnnamedDefault "zzz" = [("", 0)] := by decide
  have h2 : rankedScores stUnnamedDefault "zzz" = [("", 0)] := by
    simp only [rankedScores, h1]
    exact List.mergeSort_of_sorted (by decide)
  have h3 : select_agent stUnnamedDefault "zzz" = none := by
    simp only [select_agent, h2]
    decide
  refine ⟨by decide, rfl, by decide, h3, ?_, by decide⟩
  simp [send_task, h3]

/-- Claim C4, amended: for every non-empty registry and task routed
without an explicit agent: when the highest score strictly exceeds the
0.1 threshold (10 hundredths) an agent attaining that highest score is
selected; otherwise, when a default agent is set TO A NON-EMPTY NAME
(discovery only ever sets registered names), the default agent's entry
is selected — in particular a task scoring 0 everywhere falls back to
the default agent; otherwise (no default, or a default named by the
empty string) selection yields no agent and routing fails with the
typed error. -/
theorem c4_selection (st : OrchState) (task : String) (hne : st.agents ≠ []) :
    (∀ nm s, (nm, s) ∈ rawScores st task → (∀ q ∈ rawScores st task, q.2 ≤ s) →
      10 < s →
      ∃ nm0 info, select_agent st task = some info ∧
        dictLookup st.agents nm0 = some info ∧ (nm0, s) ∈ rawScores st task) ∧
    (∀ d dinfo, (∀ q ∈ rawScores st task, q.2 ≤ 10) → st.default_agent = some d →
      d ≠ "" → dictLookup st.agents d = some dinfo →
      select_agent st task = some dinfo) ∧
    ((∀ q ∈ rawScores st task, q.2 ≤ 10) → st.default_agent = none →
      select_agent st task = none ∧
      send_task st task none = Except.error RouteError.noSuitableAgent) := by
  obtain ⟨pn, ps, tl, hrank, hp_mem, hmax, hsel⟩ := select_setup st task hne
  refine ⟨?_, ?_, ?_⟩
  · intro nm s hmem hsmax hthr
    have hps : ps = s := le_antisymm (hsmax (pn, ps) hp_mem) (hmax (nm, s) hmem)
    have hgt : ps > 10 := by
      rw [hps]
      exact hthr
    rw [hsel, if_pos hgt]
    have hkey : pn ∈ dictKeys st.agents := by
      have hmm : (pn, ps) ∈ st.agents.map
          (fun q => (q.1, matches_task q.2 task (all_agents_keywords st))) := hp_mem
      obtain ⟨q, hq, he⟩ := List.mem_map.mp hmm
      have hq1 : q.1 = pn := congrArg Prod.fst he
      simp only [dictKeys]
      exact List.mem_map.mpr ⟨q, hq, hq1⟩
    obtain ⟨v, hv⟩ := dictLookup_isSome st.agents pn hkey
    refine ⟨pn, v, hv, hv, ?_⟩
    rw [← hps]
    exact hp_mem
  · intro d dinfo hall hdef hdne hdl
    have hng : ¬ (ps > 10) := not_lt.mpr (hall (pn, ps) hp_mem)
    rw [hsel, if_neg hng, hdef]
    show (if d ≠ "" then dictLookup st.agents d else none) = some dinfo
    rw [if_pos hdne]
    exact hdl
  · intro hall hdef
    have hng : ¬ (ps > 10) := not_lt.mpr (hall (pn, ps) hp_mem)
    have hselnone : select_agent st task = none := by
      rw [hsel, if_neg hng, hdef]
    refine ⟨hselnone, ?_⟩
    simp [send_task, hselnone]

/-- Claim C4, witness: a one-agent registry whose agent scores 0 on the
task; the default agent (a non-empty registered name) is selected. -/
theorem c4_witness : select_agent stDefaultOnly "hello" = some writerInfo :=
  (c4_selection stDefaultOnly "hello" (by decide)).2.1 "writer_service" writerInfo
    (by decide) rfl (by decide) (by decide)

/-- Claim C5: routing against an empty registry never returns a value —
for every task and every optional explicit name it fails with the typed
error `noSuitableAgent` (the single `raise ValueError("No suitable agent
found for the task")` of `send_task`); likewise whenever selection
resolves no agent. -/
theorem c5_typed_failure (st : OrchState) (task : String) (x : Option String) :
    (st.agents = [] → send_task st task x = Except.error RouteError.noSuitableAgent) ∧
    (select_agent st task = none →
      send_task st task none = Except.error RouteError.noSuitableAgent) := by
  constructor
  · intro h
    have hsel : select_agent st task = none := by
      simp [select_agent, h]
    cases x with
    | none => simp [send_task, hsel]
    | some nm =>
      have hc : dictContainsKey st.agents nm = false := by
        simp [dictContainsKey, h]
      simp [send_task, hc, hsel]
  · intro h
    simp [send_task, h]

/-- Claim C5, witness: an empty registry fails a routing call with the
typed error. -/
theorem c5_witness :
    send_task emptyOrchestrator "anything" (some "ppt_agent")
      = Except.error RouteError.noSuitableAgent :=
  (c5_typed_failure emptyOrchestrator "anything" (some "ppt_agent")).1 rfl

/-- Claim C9: the score results are ranked descending; any two entries
appearing in registry (discovery/insertion) order with equal scores keep
that relative order after the sort; and for a non-empty registry with
unique keys the head of the ranking is the FIRST entry of the registry
attaining the maximal score — so among tied top scorers the
first-discovered agent wins selection (when the threshold is cleared,
selection returns exactly that head's registry entry). -/
theorem c9_ranking (st : OrchState) (task : String) :
    ((rankedScores st task).Pairwise (fun a b : String × Int => b.2 ≤ a.2)) ∧
    (∀ a b : String × Int, [a, b].Sublist (rawScores st task) → a.2 = b.2 →
      [a, b].Sublist (rankedScores st task)) ∧
    (st.agents ≠ [] → (dictKeys st.agents).Nodup →
      ∃ pn ps tl, rankedScores st task = (pn, ps) :: tl ∧
        (∀ q ∈ rawScores st task, q.2 ≤ ps) ∧
        (rawScores st task).find? (fun q => q.2 == ps) = some (pn, ps) ∧
        (10 < ps → select_agent st task = dictLookup st.agents pn)) := by
  refine ⟨?_, ?_, ?_⟩
  · exact List.Pairwise.imp (fun hab => by simpa [scoreGE] using hab)
      (rankedScores_sorted st task)
  · intro a b hsub heq
    refine List.pair_sublist_mergeSort scoreGE_trans scoreGE_total ?_ hsub
    simp [scoreGE, heq]
  · intro hne hnodup
    obtain ⟨pn, ps, tl, hrank, hp_mem, hmax, hsel⟩ := select_setup st task hne
    have hraw_nodup : (rawScores st task).Nodup := by
      apply List.Nodup.of_map Prod.fst
      have hmapeq : (rawScores st task).map Prod.fst = dictKeys st.agents := by
        simp only [rawScores, dictKeys, List.map_map]
        rfl
      rw [hmapeq]
      exact hnodup
    refine ⟨pn, ps, tl, hrank, hmax, ?_, ?_⟩
    · have hfind_some : ((rawScores st task).find? (fun q => q.2 == ps)).isSome
          = true := by
        rw [List.find?_isSome]
        exact ⟨(pn, ps), hp_mem, by simp⟩
      obtain ⟨x, hx⟩ := Option.isSome_iff_exists.mp hfind_some
      have hxps : x.2 = ps := by
        have hb := List.find?_some hx
        simpa using hb
      rcases List.find?_eq_some.mp hx with ⟨_, as, bs, hsplit, hfail⟩
      by_cases hxp : x = (pn, ps)
      · rw [hx, hxp]
      · exfalso
        have hp_in : (pn, ps) ∈ as ++ x :: bs := hsplit ▸ hp_mem
        have hp_not_as : (pn, ps) ∉ as := by
          intro hin
          have hf := hfail (pn, ps) hin
          simp at hf
        have hp_bs : (pn, ps) ∈ bs := by
          rcases List.mem_append.mp hp_in with h | h
          · exact absurd h hp_not_as
          · rcases List.mem_cons.mp h with h' | h'
            · exact absurd h'.symm hxp
            · exact h'
        have hpair : [x, (pn, ps)].Sublist (rawScores st task) := by
          rw [hsplit]
          exact (List.Sublist.cons₂ x (List.singleton_sublist.mpr hp_bs)).trans
            (List.sublist_append_right as (x :: bs))
        have hge : scoreGE x (pn, ps) = true := by
          simp [scoreGE, hxps]
        have hstab :=
          List.pair_sublist_mergeSort scoreGE_trans scoreGE_total hge hpair
        rw [show (rawScores st task).mergeSort scoreGE = rankedScores st task from rfl,
          hrank] at hstab
        have hranked_nodup : ((pn, ps) :: tl).Nodup := by
          rw [← hrank]
          exact (rankedScores_perm st task).nodup_iff.mpr hraw_nodup
        have hp_not_tl : (pn, ps) ∉ tl := (List.nodup_cons.mp hranked_nodup).1
        cases hstab with
        | cons _ h' => exact hp_not_tl (h'.subset (by simp))
        | cons₂ _ h' => exact hxp rfl
    · intro hthr
      rw [hsel, if_pos hthr]

/-- Claim C9, witness: two agents tie with score 0; the ranking head is
the first-discovered of the two. -/
theorem c9_witness :
    ∃ pn ps tl, rankedScores stTies "hello" = (pn, ps) :: tl ∧
      (∀ q ∈ rawScores stTies "hello", q.2 ≤ ps) ∧
      (rawScores stTies "hello").find? (fun q => q.2 == ps) = some (pn, ps) ∧
      (10 < ps → select_agent stTies "hello" = dictLookup stTies.agents pn) :=
  (c9_ranking stTies "hello").2.2 (by decide) (by decide)

/-- Claim C10: an explicit agent name that is not a registry key is
silently ignored — routing behaves exactly as if no explicit agent had
been given (in particular it never fails merely because the name is
absent). -/
theorem c10_unknown_explicit (st : OrchState) (task : String) (nm : String)
    (h : dictContainsKey st.agents nm = false) :
    send_task st task (some nm) = send_task st task none := by
  have hcond : ¬ (nm ≠ "" ∧ dictContainsKey st.agents nm = true) := by
    intro hc
    rw [h] at hc
    exact Bool.false_ne_true hc.2
  simp only [send_task]
  rw [if_neg hcond]

/-- Claim C10, witness: an unknown explicit name on the demo registry
routes identically to the implicit call. -/
theorem c10_witness :
    send_task demoRegistry "write a blog" (some "nonexistent_agent")
      = send_task demoRegistry "write a blog" none :=
  c10_unknown_explicit demoRegistry "write a blog" "nonexistent_agent" (by decide)

end A2AOrch
